import Mathlib

/-!
Verification of the api-extractor JSON generator
(src/libraries/api-extractor/src/generators/ApiJsonGenerator.ts).

The development shallowly embeds the data model consumed by the generator
(the documented item tree), the JSON document under construction (an
insertion-order-preserving key/value container), and the visitor methods of
the ApiJsonGenerator class.  Mutation of JavaScript objects is modelled by
explicit state passing: `visit` returns both the updated target container
and the item tree after the traversal (the source mutates parameter
documentation entries in place, so the tree after the traversal matters).
-/

namespace ApiJson

/-- Rich text element (IDocElement).  The generator copies these values
verbatim and never inspects them, so they are modelled as opaque strings. -/
abbrev DocElement := String

/-- Release tags of ../aedoc/ReleaseTag (None, Public, Beta, Alpha, Internal). -/
inductive ReleaseTag where
  | None
  | Public
  | Beta
  | Alpha
  | Internal
deriving DecidableEq, Repr

/-- Item kinds of ../ast/AstItem (AstItemKind), restricted to the kinds the
generator mentions. -/
inductive AstItemKind where
  | Class
  | Interface
  | Enum
  | EnumValue
  | Function
  | Constructor
  | Method
  | Property
  | Namespace
  | ModuleVariable
  | Package
deriving DecidableEq, Repr

/-- Modelled from the spec: the Kind-Name Table (ApiJsonFile.convertKindToJson,
whose source file is not under src/) is a total pure map from internal kind
tags to the fixed lowercase strings used in the document. -/
def convertKindToJson : AstItemKind → String
  | AstItemKind.Class => "class"
  | AstItemKind.Interface => "interface"
  | AstItemKind.Enum => "enum"
  | AstItemKind.EnumValue => "enum value"
  | AstItemKind.Function => "function"
  | AstItemKind.Constructor => "constructor"
  | AstItemKind.Method => "method"
  | AstItemKind.Property => "property"
  | AstItemKind.Namespace => "namespace"
  | AstItemKind.ModuleVariable => "module variable"
  | AstItemKind.Package => "package"

/-- All kind strings of the Kind-Name Table. -/
def jsonKindStrings : List String :=
  [AstItemKind.Class, AstItemKind.Interface, AstItemKind.Enum, AstItemKind.EnumValue,
   AstItemKind.Function, AstItemKind.Constructor, AstItemKind.Method, AstItemKind.Property,
   AstItemKind.Namespace, AstItemKind.ModuleVariable, AstItemKind.Package].map convertKindToJson

/-- A token node of the TypeScript AST (ts.Node).  Only its source text is
read by the generator; the position distinguishes distinct token objects,
mirroring reference identity of distinct AST nodes. -/
structure TsNode where
  pos : Nat
  text : String
deriving DecidableEq, Repr

/-- The numeric value of ts.SyntaxKind.SetAccessor.  Only equality with the
kind stored on a declaration matters, never the concrete number. -/
def setAccessorSyntaxKind : Nat := 154

/-- A declaration handle (ts.Declaration): its syntax kind number and its
token list, from which getFirstToken and getLastToken read. -/
structure TsDeclaration where
  kind : Nat
  tokens : List TsNode
deriving DecidableEq, Repr

/-- A parameter documentation entry (IApiParameter of ../api/ApiItem.ts). -/
structure ApiParamDoc where
  name : String
  description : List DocElement
  isOptional : Bool
  isSpread : Bool
  type : String
deriving DecidableEq, Repr

/-- A declared parameter of a function or method signature (AstParameter). -/
structure AstParameter where
  name : String
  supportedName : Bool
  isOptional : Bool
  isSpread : Bool
  type : String
deriving DecidableEq, Repr

/-- The documentation bundle attached to every item.  Fields that the
handlers default with a JavaScript fallback to the empty sequence are
Options, none standing for undefined. -/
structure ApiDocumentation where
  releaseTag : ReleaseTag
  summary : Option (List DocElement)
  remarks : Option (List DocElement)
  deprecatedMessage : Option (List DocElement)
  parameters : List (String × ApiParamDoc)
  returnsMessage : List DocElement
deriving DecidableEq, Repr

/-- A JSON value of the document under construction.  Objects are
insertion-ordered association lists; the undefined constructor models a JavaScript undefined
value assigned into an object slot. -/
inductive JValue where
  | str (s : String)
  | bool (b : Bool)
  | arr (elems : List JValue)
  | obj (fields : List (String × JValue))
  | undefined
deriving Repr

/-- An insertion-ordered JSON object under construction. -/
abbrev JObject := List (String × JValue)

/- The documented item tree consumed by the generator, one constructor per
Ast class the visitor dispatches on.  Member lists use the mutually defined
AstItemList so that all traversals are structurally recursive. -/
mutual
inductive AstItem where
  | astStructuredType (name : String) (supportedName : Bool) (kind : AstItemKind)
      (extendsType : Option String) (implementsType : Option String)
      (typeParameters : Option (List String)) (documentation : ApiDocumentation)
      (members : AstItemList)
  | astEnum (name : String) (supportedName : Bool) (documentation : ApiDocumentation)
      (members : AstItemList)
  | astEnumValue (name : String) (supportedName : Bool) (documentation : ApiDocumentation)
      (decl : Option TsDeclaration)
  | astFunction (name : String) (supportedName : Bool) (documentation : ApiDocumentation)
      (params : List AstParameter) (returnType : String)
  | astPackage (name : String) (supportedName : Bool) (documentation : ApiDocumentation)
      (members : AstItemList)
  | astNamespace (name : String) (supportedName : Bool) (documentation : ApiDocumentation)
      (members : AstItemList)
  | astMember (name : String) (supportedName : Bool) (documentation : ApiDocumentation)
      (decl : TsDeclaration)
  | astProperty (name : String) (supportedName : Bool) (documentation : ApiDocumentation)
      (decl : TsDeclaration) (isOptional : Bool) (isReadOnly : Bool) (isStatic : Bool)
      (type : String)
  | astModuleVariable (name : String) (supportedName : Bool)
      (documentation : ApiDocumentation) (type : String) (value : String)
  | astMethod (name : String) (supportedName : Bool) (documentation : ApiDocumentation)
      (declarationLine : String) (accessModifier : Option String)
      (isOptional : Bool) (isStatic : Bool) (returnType : String)
      (params : List AstParameter)
inductive AstItemList where
  | nil
  | cons (head : AstItem) (tail : AstItemList)
end

mutual
/-- Size measure used only to justify induction in proofs. -/
def AstItem.depth : AstItem → Nat
  | .astStructuredType _ _ _ _ _ _ _ members => members.depthList + 1
  | .astEnum _ _ _ members => members.depthList + 1
  | .astPackage _ _ _ members => members.depthList + 1
  | .astNamespace _ _ _ members => members.depthList + 1
  | _ => 1
def AstItemList.depthList : AstItemList → Nat
  | .nil => 1
  | .cons h t => h.depth + t.depthList + 1
end

/-- Conversion of the mutual member list to an ordinary list. -/
def AstItemList.toList : AstItemList → List AstItem
  | .nil => []
  | .cons h t => h :: t.toList

/-- Concatenation of member lists. -/
def AstItemList.append : AstItemList → AstItemList → AstItemList
  | .nil, b => b
  | .cons h t, b => .cons h (t.append b)

/-- The declared identifier of an item. -/
def AstItem.name : AstItem → String
  | .astStructuredType n _ _ _ _ _ _ _ => n
  | .astEnum n _ _ _ => n
  | .astEnumValue n _ _ _ => n
  | .astFunction n _ _ _ _ => n
  | .astPackage n _ _ _ => n
  | .astNamespace n _ _ _ => n
  | .astMember n _ _ _ => n
  | .astProperty n _ _ _ _ _ _ _ => n
  | .astModuleVariable n _ _ _ _ => n
  | .astMethod n _ _ _ _ _ _ _ _ => n

/-- Whether the export name of the item is representable (supportedName). -/
def AstItem.supportedName : AstItem → Bool
  | .astStructuredType _ sn _ _ _ _ _ _ => sn
  | .astEnum _ sn _ _ => sn
  | .astEnumValue _ sn _ _ => sn
  | .astFunction _ sn _ _ _ => sn
  | .astPackage _ sn _ _ => sn
  | .astNamespace _ sn _ _ => sn
  | .astMember _ sn _ _ => sn
  | .astProperty _ sn _ _ _ _ _ _ => sn
  | .astModuleVariable _ sn _ _ _ => sn
  | .astMethod _ sn _ _ _ _ _ _ _ => sn

/-- The documentation bundle of an item. -/
def AstItem.documentation : AstItem → ApiDocumentation
  | .astStructuredType _ _ _ _ _ _ d _ => d
  | .astEnum _ _ d _ => d
  | .astEnumValue _ _ d _ => d
  | .astFunction _ _ d _ _ => d
  | .astPackage _ _ d _ => d
  | .astNamespace _ _ d _ => d
  | .astMember _ _ d _ => d
  | .astProperty _ _ d _ _ _ _ _ => d
  | .astModuleVariable _ _ d _ _ => d
  | .astMethod _ _ d _ _ _ _ _ _ => d

/-- Whether the item is the package root kind. -/
def AstItem.isPackage : AstItem → Bool
  | .astPackage _ _ _ _ => true
  | _ => false

/-- Whether the item is a module variable. -/
def AstItem.isModuleVariable : AstItem → Bool
  | .astModuleVariable _ _ _ _ _ => true
  | _ => false

/-- Whether the item is handled by the generic placeholder handler
(visitAstMember). -/
def AstItem.isGenericMember : AstItem → Bool
  | .astMember _ _ _ _ => true
  | _ => false

/-- Whether the item is a method named with the reserved constructor
identifier. -/
def AstItem.isCtorMethod : AstItem → Bool
  | .astMethod n _ _ _ _ _ _ _ _ => n = "__constructor"
  | _ => false

/-- JavaScript property assignment on an object: assigning to an existing
key overwrites its value in place keeping the original key position,
assigning to a fresh key appends it. -/
def setKey {α : Type} : List (String × α) → String → α → List (String × α)
  | [], k, v => [(k, v)]
  | (k0, v0) :: rest, k, v =>
      if k0 = k then (k, v) :: rest else (k0, v0) :: setKey rest k v

/-- JavaScript property read on an object. -/
def lookupKey {α : Type} : List (String × α) → String → Option α
  | [], _ => none
  | (k0, v0) :: rest, k => if k0 = k then some v0 else lookupKey rest k

/-- The key sequence of an object, in insertion order. -/
def objKeys (o : JObject) : List String := o.map Prod.fst

/-- Property read on a JSON value, none when the value is not an object. -/
def objGetV (v : JValue) (k : String) : Option JValue :=
  match v with
  | .obj fields => lookupKey fields k
  | _ => none

/-- The JavaScript fallback rich-text-or-empty: doc.field || []. -/
def jlist (o : Option (List DocElement)) : JValue :=
  .arr ((o.getD []).map .str)

/-- A raw assignment of a possibly undefined rich text sequence (used by the
package handler, which applies no fallback). -/
def jraw (o : Option (List DocElement)) : JValue :=
  match o with
  | some l => .arr (l.map .str)
  | none => .undefined

/-- Serialization of one parameter documentation entry. -/
def paramDocToJson (p : ApiParamDoc) : JValue :=
  .obj [("name", .str p.name), ("description", .arr (p.description.map .str)),
        ("isOptional", .bool p.isOptional), ("isSpread", .bool p.isSpread),
        ("type", .str p.type)]

/-- Serialization of the parameter documentation map. -/
def paramsToJson (ps : List (String × ApiParamDoc)) : JValue :=
  .obj (ps.map (fun kv => (kv.1, paramDocToJson kv.2)))

/-- ApiJsonGenerator.visitApiParam: when the parameter name is supported and
a documentation entry exists, overwrite isOptional, isSpread and type of the
entry from the declared parameter; otherwise leave everything alone. -/
def visitApiParam (astParam : AstParameter) (refObject : Option ApiParamDoc) :
    Option ApiParamDoc :=
  if !astParam.supportedName then refObject
  else
    match refObject with
    | none => none
    | some entry =>
        some { entry with
                 isOptional := astParam.isOptional,
                 isSpread := astParam.isSpread,
                 type := astParam.type }

/-- In-place update of the entry stored under a key of an association list
(the JavaScript mutation of docs.parameters[name]). -/
def mapEntry {α : Type} (l : List (String × α)) (k : String) (f : α → α) :
    List (String × α) :=
  l.map (fun kv => if kv.1 = k then (kv.1, f kv.2) else kv)

/-- The parameter loop of visitAstFunction and visitAstMethod: each declared
parameter is cross-checked against its documentation entry by visitApiParam,
mutating the entry in place when it exists. -/
def applyApiParams (params : List AstParameter)
    (docParams : List (String × ApiParamDoc)) : List (String × ApiParamDoc) :=
  params.foldl
    (fun acc p => mapEntry acc p.name (fun entry => (visitApiParam p (some entry)).getD entry))
    docParams

/-- The isBeta output field: releaseTag === ReleaseTag.Beta. -/
def isBetaOf (documentation : ApiDocumentation) : JValue :=
  .bool (decide (documentation.releaseTag = ReleaseTag.Beta))

/-- The node built by visitAstStructuredType (before insertion), including
the conditional members sub-container: the source attaches the members key
only when the member list is non-empty. -/
def structuredTypeNode (kind : AstItemKind) (extendsType implementsType : Option String)
    (typeParameters : Option (List String)) (documentation : ApiDocumentation)
    (memberCount : Nat) (membersNode : JObject) : JValue :=
  let kindStr : String :=
    if kind = AstItemKind.Class then convertKindToJson AstItemKind.Class
    else if kind = AstItemKind.Interface then convertKindToJson AstItemKind.Interface
    else ""
  let base : JObject :=
    [("kind", .str kindStr),
     ("extends", .str (extendsType.getD (""))),
     ("implements", .str (implementsType.getD (""))),
     ("typeParameters", .arr ((typeParameters.getD []).map .str)),
     ("deprecatedMessage", jlist documentation.deprecatedMessage),
     ("summary", jlist documentation.summary),
     ("remarks", jlist documentation.remarks),
     ("isBeta", isBetaOf documentation)]
  .obj (base ++ (if memberCount ≠ 0 then [("members", .obj membersNode)] else []))

/-- The node built by visitAstEnum. -/
def enumNode (documentation : ApiDocumentation) (valuesNode : JObject) : JValue :=
  .obj [("kind", .str (convertKindToJson AstItemKind.Enum)),
        ("values", .obj valuesNode),
        ("deprecatedMessage", jlist documentation.deprecatedMessage),
        ("summary", jlist documentation.summary),
        ("remarks", jlist documentation.remarks),
        ("isBeta", isBetaOf documentation)]

/-- The literal text of an enum value: the last token of the declaration when
it is a distinct node from the first token, else the empty string; an absent
declaration degrades to the empty string.  Reference inequality of token
nodes is modelled by structural inequality of TsNode. -/
def enumValueText (decl : Option TsDeclaration) : String :=
  let firstToken : Option TsNode := decl.bind (fun d => d.tokens.head?)
  let lastToken : Option TsNode := decl.bind (fun d => d.tokens.getLast?)
  match lastToken with
  | some lt => if firstToken = some lt then "" else lt.text
  | none => ""

/-- The node built by visitAstEnumValue. -/
def enumValueNode (documentation : ApiDocumentation) (decl : Option TsDeclaration) : JValue :=
  .obj [("kind", .str (convertKindToJson AstItemKind.EnumValue)),
        ("value", .str (enumValueText decl)),
        ("deprecatedMessage", jlist documentation.deprecatedMessage),
        ("summary", jlist documentation.summary),
        ("remarks", jlist documentation.remarks),
        ("isBeta", isBetaOf documentation)]

/-- The returnValue sub-node of functions and non-constructor methods. -/
def returnValueNode (returnType : String) (documentation : ApiDocumentation) : JValue :=
  .obj [("type", .str returnType),
        ("description", .arr (documentation.returnsMessage.map .str))]

/-- The node built by visitAstFunction, whose parameters field serializes the
documentation parameter map after the visitApiParam loop. -/
def functionNode (documentation : ApiDocumentation)
    (parametersAfter : List (String × ApiParamDoc)) (returnType : String) : JValue :=
  .obj [("kind", .str (convertKindToJson AstItemKind.Function)),
        ("returnValue", returnValueNode returnType documentation),
        ("parameters", paramsToJson parametersAfter),
        ("deprecatedMessage", jlist documentation.deprecatedMessage),
        ("summary", jlist documentation.summary),
        ("remarks", jlist documentation.remarks),
        ("isBeta", isBetaOf documentation)]

/-- The node built by visitAstNamespace. -/
def namespaceNode (documentation : ApiDocumentation) (membersNode : JObject) : JValue :=
  .obj [("kind", .str (convertKindToJson AstItemKind.Namespace)),
        ("deprecatedMessage", jlist documentation.deprecatedMessage),
        ("summary", jlist documentation.summary),
        ("remarks", jlist documentation.remarks),
        ("isBeta", isBetaOf documentation),
        ("exports", .obj membersNode)]

/-- The placeholder value built by visitAstMember: a plain string tagging the
declaration syntax kind. -/
def memberPlaceholder (decl : TsDeclaration) : JValue :=
  .str (("astMember-") ++ toString decl.kind)

/-- The node built by visitAstProperty. -/
def propertyNode (documentation : ApiDocumentation)
    (isOptional isReadOnly isStatic : Bool) (type : String) : JValue :=
  .obj [("kind", .str (convertKindToJson AstItemKind.Property)),
        ("isOptional", .bool isOptional),
        ("isReadOnly", .bool isReadOnly),
        ("isStatic", .bool isStatic),
        ("type", .str type),
        ("deprecatedMessage", jlist documentation.deprecatedMessage),
        ("summary", jlist documentation.summary),
        ("remarks", jlist documentation.remarks),
        ("isBeta", isBetaOf documentation)]

/-- The node built by visitAstModuleVariable. -/
def moduleVariableNode (documentation : ApiDocumentation) (type value : String) : JValue :=
  .obj [("kind", .str (convertKindToJson AstItemKind.ModuleVariable)),
        ("type", .str type),
        ("value", .str value),
        ("deprecatedMessage", jlist documentation.deprecatedMessage),
        ("summary", jlist documentation.summary),
        ("remarks", jlist documentation.remarks),
        ("isBeta", isBetaOf documentation)]

/-- The node built by visitAstMethod: a method named with the reserved
constructor identifier gets the constructor shape with exactly six fields,
any other method gets the full method shape. -/
def methodNode (name : String) (documentation : ApiDocumentation)
    (declarationLine : String) (accessModifier : Option String)
    (isOptional isStatic : Bool) (returnType : String)
    (parametersAfter : List (String × ApiParamDoc)) : JValue :=
  if name = "__constructor" then
    .obj [("kind", .str (convertKindToJson AstItemKind.Constructor)),
          ("signature", .str declarationLine),
          ("parameters", paramsToJson parametersAfter),
          ("deprecatedMessage", jlist documentation.deprecatedMessage),
          ("summary", jlist documentation.summary),
          ("remarks", jlist documentation.remarks)]
  else
    .obj [("kind", .str (convertKindToJson AstItemKind.Method)),
          ("signature", .str declarationLine),
          ("accessModifier", .str (accessModifier.getD (""))),
          ("isOptional", .bool isOptional),
          ("isStatic", .bool isStatic),
          ("returnValue", returnValueNode returnType documentation),
          ("parameters", paramsToJson parametersAfter),
          ("deprecatedMessage", jlist documentation.deprecatedMessage),
          ("summary", jlist documentation.summary),
          ("remarks", jlist documentation.remarks),
          ("isBeta", isBetaOf documentation)]

/-- ApiJsonGenerator.visitAstEnumValue: gate on supportedName, then insert
the enum value node under the item name. -/
def visitAstEnumValue (name : String) (sn : Bool) (documentation : ApiDocumentation)
    (decl : Option TsDeclaration) (refObject : JObject) : JObject :=
  if !sn then refObject
  else setKey refObject name (enumValueNode documentation decl)

/-- ApiJsonGenerator.visitAstMember, the generic placeholder handler: gate on
supportedName, then insert a plain string naming the declaration kind. -/
def visitAstMember (name : String) (sn : Bool) (decl : TsDeclaration)
    (refObject : JObject) : JObject :=
  if !sn then refObject
  else setKey refObject name (memberPlaceholder decl)

/-- ApiJsonGenerator.visitAstProperty: gate on supportedName, skip set
accessors, then insert the property node. -/
def visitAstProperty (name : String) (sn : Bool) (documentation : ApiDocumentation)
    (decl : TsDeclaration) (isOptional isReadOnly isStatic : Bool) (type : String)
    (refObject : JObject) : JObject :=
  if !sn then refObject
  else if decl.kind = setAccessorSyntaxKind then refObject
  else setKey refObject name (propertyNode documentation isOptional isReadOnly isStatic type)

/-- ApiJsonGenerator.visitAstModuleVariable: inserts the module variable node
unconditionally; the source contains no supportedName gate in this handler. -/
def visitAstModuleVariable (name : String) (documentation : ApiDocumentation)
    (type value : String) (refObject : JObject) : JObject :=
  setKey refObject name (moduleVariableNode documentation type value)

/-- ApiJsonGenerator.visitAstFunction: gate on supportedName, run the
visitApiParam loop over the declared parameters (mutating the documentation
parameter map), then insert the function node.  Returns the updated target
container and the function item with its mutated documentation. -/
def visitAstFunction (name : String) (sn : Bool) (documentation : ApiDocumentation)
    (params : List AstParameter) (returnType : String) (refObject : JObject) :
    JObject × AstItem :=
  if !sn then (refObject, .astFunction name sn documentation params returnType)
  else
    let parametersAfter := applyApiParams params documentation.parameters
    (setKey refObject name (functionNode documentation parametersAfter returnType),
     .astFunction name sn { documentation with parameters := parametersAfter } params returnType)

/-- ApiJsonGenerator.visitAstMethod: gate on supportedName, run the
visitApiParam loop, then insert the constructor-shaped or method-shaped node
depending on whether the name is the reserved constructor identifier. -/
def visitAstMethod (name : String) (sn : Bool) (documentation : ApiDocumentation)
    (declarationLine : String) (accessModifier : Option String)
    (isOptional isStatic : Bool) (returnType : String) (params : List AstParameter)
    (refObject : JObject) : JObject × AstItem :=
  if !sn then
    (refObject,
     .astMethod name sn documentation declarationLine accessModifier isOptional isStatic
       returnType params)
  else
    let parametersAfter := applyApiParams params documentation.parameters
    (setKey refObject name
       (methodNode name documentation declarationLine accessModifier isOptional isStatic
          returnType parametersAfter),
     .astMethod name sn { documentation with parameters := parametersAfter } declarationLine
       accessModifier isOptional isStatic returnType params)

/-- ApiJsonGenerator.visitAstStructuredType: gate on supportedName, insert
the structured type node, and attach the members sub-container (already
computed by the caller as visited) only when the raw member list is
non-empty.  Returns the container and the item with visited members. -/
def visitAstStructuredType (name : String) (sn : Bool) (kind : AstItemKind)
    (extendsType implementsType : Option String) (typeParameters : Option (List String))
    (documentation : ApiDocumentation) (members : AstItemList)
    (visited : JObject × AstItemList) (refObject : JObject) : JObject × AstItem :=
  if !sn then
    (refObject,
     .astStructuredType name sn kind extendsType implementsType typeParameters documentation
       members)
  else
    (setKey refObject name
       (structuredTypeNode kind extendsType implementsType typeParameters documentation
          members.toList.length visited.1),
     .astStructuredType name sn kind extendsType implementsType typeParameters documentation
       (if members.toList.length ≠ 0 then visited.2 else members))

/-- ApiJsonGenerator.visitAstEnum: gate on supportedName, visit the values
into a fresh container (passed in as visited) and insert the enum node. -/
def visitAstEnum (name : String) (sn : Bool) (documentation : ApiDocumentation)
    (members : AstItemList) (visited : JObject × AstItemList) (refObject : JObject) :
    JObject × AstItem :=
  if !sn then (refObject, .astEnum name sn documentation members)
  else
    (setKey refObject name (enumNode documentation visited.1),
     .astEnum name sn documentation visited.2)

/-- ApiJsonGenerator.visitAstNamespace: gate on supportedName, visit the
members into a fresh container and insert the namespace node with its
exports sub-container. -/
def visitAstNamespace (name : String) (sn : Bool) (documentation : ApiDocumentation)
    (members : AstItemList) (visited : JObject × AstItemList) (refObject : JObject) :
    JObject × AstItem :=
  if !sn then (refObject, .astNamespace name sn documentation members)
  else
    (setKey refObject name (namespaceNode documentation visited.1),
     .astNamespace name sn documentation visited.2)

/-- ApiJsonGenerator.visitAstPackage: writes kind, summary and remarks (no
fallback defaults and no supportedName gate) directly into the target
container, then attaches the exports sub-container. -/
def visitAstPackage (name : String) (sn : Bool) (documentation : ApiDocumentation)
    (members : AstItemList) (visited : JObject × AstItemList) (refObject : JObject) :
    JObject × AstItem :=
  let o1 := setKey refObject ("kind") (.str (convertKindToJson AstItemKind.Package))
  let o2 := setKey o1 ("summary") (jraw documentation.summary)
  let o3 := setKey o2 ("remarks") (jraw documentation.remarks)
  let o4 := setKey o3 ("exports") (.obj visited.1)
  (o4, .astPackage name sn documentation visited.2)

/-- The visibility gate of ApiJsonGenerator.visit: the switch over the
release tag breaks (passes) for None, Beta and Public and returns (fails)
for every other tag. -/
def tagPass (t : ReleaseTag) : Bool :=
  match t with
  | ReleaseTag.None | ReleaseTag.Beta | ReleaseTag.Public => true
  | _ => false

mutual
/-- ApiJsonGenerator.visit: the visibility gate of the override (lines 75 to
86) followed by the kind dispatch of the base class AstItemVisitor.  The
dispatch itself is modelled from the spec: the base class source is not
under src/; per spec section 4.1 it dispatches on the item kind to the
handler methods, with visitAstMember as the generic placeholder.
getSortedMemberItems of the upstream model is likewise not under src/ and is
modelled as the ordered members field of the item. -/
def visit (astItem : AstItem) (refObject : JObject) : JObject × AstItem :=
  if tagPass astItem.documentation.releaseTag then
    match astItem with
    | .astStructuredType n sn k ex im tp doc members =>
        visitAstStructuredType n sn k ex im tp doc members (visitList members []) refObject
    | .astEnum n sn doc members =>
        visitAstEnum n sn doc members (visitList members []) refObject
    | .astEnumValue n sn doc decl =>
        (visitAstEnumValue n sn doc decl refObject, .astEnumValue n sn doc decl)
    | .astFunction n sn doc params rt =>
        visitAstFunction n sn doc params rt refObject
    | .astPackage n sn doc members =>
        visitAstPackage n sn doc members (visitList members []) refObject
    | .astNamespace n sn doc members =>
        visitAstNamespace n sn doc members (visitList members []) refObject
    | .astMember n sn doc decl =>
        (visitAstMember n sn decl refObject, .astMember n sn doc decl)
    | .astProperty n sn doc decl iopt iro istat ty =>
        (visitAstProperty n sn doc decl iopt iro istat ty refObject,
         .astProperty n sn doc decl iopt iro istat ty)
    | .astModuleVariable n sn doc ty v =>
        (visitAstModuleVariable n doc ty v refObject, .astModuleVariable n sn doc ty v)
    | .astMethod n sn doc dl am iopt istat rt ps =>
        visitAstMethod n sn doc dl am iopt istat rt ps refObject
  else (refObject, astItem)

/-- The member loop shared by the container handlers: visit every member of
the list into the same container, threading the container through and
collecting the items after traversal. -/
def visitList (items : AstItemList) (refObject : JObject) : JObject × AstItemList :=
  match items with
  | .nil => (refObject, .nil)
  | .cons head tail =>
      let r1 := visit head refObject
      let r2 := visitList tail r1.1
      (r2.1, .cons r1.2 r2.2)
end

/-- The kind dispatch of the base class visitor, as invoked by super.visit
after the visibility gate passed.  Modelled from the spec (section 4.1);
its arms are the handler calls of visit, stated separately so that the gate
and the dispatch can be reasoned about independently. -/
def superVisit (astItem : AstItem) (refObject : JObject) : JObject × AstItem :=
  match astItem with
  | .astStructuredType n sn k ex im tp doc members =>
      visitAstStructuredType n sn k ex im tp doc members (visitList members []) refObject
  | .astEnum n sn doc members =>
      visitAstEnum n sn doc members (visitList members []) refObject
  | .astEnumValue n sn doc decl =>
      (visitAstEnumValue n sn doc decl refObject, .astEnumValue n sn doc decl)
  | .astFunction n sn doc params rt =>
      visitAstFunction n sn doc params rt refObject
  | .astPackage n sn doc members =>
      visitAstPackage n sn doc members (visitList members []) refObject
  | .astNamespace n sn doc members =>
      visitAstNamespace n sn doc members (visitList members []) refObject
  | .astMember n sn doc decl =>
      (visitAstMember n sn decl refObject, .astMember n sn doc decl)
  | .astProperty n sn doc decl iopt iro istat ty =>
      (visitAstProperty n sn doc decl iopt iro istat ty refObject,
       .astProperty n sn doc decl iopt iro istat ty)
  | .astModuleVariable n sn doc ty v =>
      (visitAstModuleVariable n doc ty v refObject, .astModuleVariable n sn doc ty v)
  | .astMethod n sn doc dl am iopt istat rt ps =>
      visitAstMethod n sn doc dl am iopt istat rt ps refObject

/-- Whether the kind handler of the item, once reached, inserts an entry:
every handler gates on supportedName except the module variable handler
(which has no gate) and the package handler (which has no gate and writes
fixed keys); the property handler additionally skips set accessors. -/
def supportedGate : AstItem → Bool
  | .astStructuredType _ sn _ _ _ _ _ _ => sn
  | .astEnum _ sn _ _ => sn
  | .astEnumValue _ sn _ _ => sn
  | .astFunction _ sn _ _ _ => sn
  | .astPackage _ _ _ _ => true
  | .astNamespace _ sn _ _ => sn
  | .astMember _ sn _ _ => sn
  | .astProperty _ sn _ decl _ _ _ _ => sn && !(decide (decl.kind = setAccessorSyntaxKind))
  | .astModuleVariable _ _ _ _ _ => true
  | .astMethod _ sn _ _ _ _ _ _ _ => sn

/-- Whether visiting the item inserts an entry under its name into the
target container: the visibility gate and the handler gate both pass. -/
def emits (astItem : AstItem) : Bool :=
  tagPass astItem.documentation.releaseTag && supportedGate astItem

/-- The value inserted under the item name when the item emits (package
excluded: the package handler writes fixed keys instead of one entry). -/
def emittedValue (astItem : AstItem) : JValue :=
  match astItem with
  | .astStructuredType _ _ k ex im tp doc members =>
      structuredTypeNode k ex im tp doc members.toList.length (visitList members []).1
  | .astEnum _ _ doc members => enumNode doc (visitList members []).1
  | .astEnumValue _ _ doc decl => enumValueNode doc decl
  | .astFunction _ _ doc params rt =>
      functionNode doc (applyApiParams params doc.parameters) rt
  | .astPackage _ _ _ _ => .obj []
  | .astNamespace _ _ doc members => namespaceNode doc (visitList members []).1
  | .astMember _ _ _ decl => memberPlaceholder decl
  | .astProperty _ _ doc _ iopt iro istat ty => propertyNode doc iopt iro istat ty
  | .astModuleVariable _ _ doc ty v => moduleVariableNode doc ty v
  | .astMethod n _ doc dl am iopt istat rt ps =>
      methodNode n doc dl am iopt istat rt (applyApiParams ps doc.parameters)

/-- Erasure of the parameter documentation map of one bundle. -/
def eraseDoc (d : ApiDocumentation) : ApiDocumentation :=
  { d with parameters := [] }

mutual
/-- Erasure of every parameter documentation map in the tree: two trees agree
on every field outside the parameter documentation entries exactly when
their erasures are equal. -/
def eraseParams : AstItem → AstItem
  | .astStructuredType n sn k ex im tp doc members =>
      .astStructuredType n sn k ex im tp (eraseDoc doc) (eraseParamsList members)
  | .astEnum n sn doc members => .astEnum n sn (eraseDoc doc) (eraseParamsList members)
  | .astEnumValue n sn doc decl => .astEnumValue n sn (eraseDoc doc) decl
  | .astFunction n sn doc params rt => .astFunction n sn (eraseDoc doc) params rt
  | .astPackage n sn doc members => .astPackage n sn (eraseDoc doc) (eraseParamsList members)
  | .astNamespace n sn doc members =>
      .astNamespace n sn (eraseDoc doc) (eraseParamsList members)
  | .astMember n sn doc decl => .astMember n sn (eraseDoc doc) decl
  | .astProperty n sn doc decl iopt iro istat ty =>
      .astProperty n sn (eraseDoc doc) decl iopt iro istat ty
  | .astModuleVariable n sn doc ty v => .astModuleVariable n sn (eraseDoc doc) ty v
  | .astMethod n sn doc dl am iopt istat rt ps =>
      .astMethod n sn (eraseDoc doc) dl am iopt istat rt ps
/-- List version of eraseParams. -/
def eraseParamsList : AstItemList → AstItemList
  | .nil => .nil
  | .cons h t => .cons (eraseParams h) (eraseParamsList t)
end

/-- The file system seen by writeJsonFile: saved documents by path. -/
abbrev FileSystem := List (String × JValue)

/-- Modelled from the spec: JsonFile.save of the node-core-library collaborator
(not under src/) persists the serialized document at the given path. -/
def jsonFileSave (fs : FileSystem) (path : String) (v : JValue) : FileSystem :=
  setKey fs path v

/-- Read back a persisted file. -/
def fsRead (fs : FileSystem) (path : String) : Option JValue :=
  lookupKey fs path

/-- Scan of the character list keeping the text after the last separator. -/
def basenameAux : List Char → String → String
  | [], acc => acc
  | c :: rest, acc =>
      if c = '/' then basenameAux rest ("") else basenameAux rest (acc.push c)

/-- Modelled from the spec: path.basename of the Node path module (an external
collaborator) returns the last component of the path. -/
def pathBasename (p : String) : String :=
  basenameAux p.toList ("")

/-- The fixed text of the schema violation message of writeJsonFile. -/
def schemaErrorText : String :=
  " does not conform to the expected schema -- please report this API Extractor bug:"

/-- ApiJsonGenerator.writeJsonFile: build the document by visiting the root
package into the fresh output object, persist it, then validate it.  The
schema validator is the black box collaborator of the spec, modelled as a
function returning the structured error details on violation; the throw of
the validation callback is modelled as the error result. -/
def writeJsonFile (validate : JValue → Option String) (reportFilename : String)
    (extractorPackage : AstItem) (fs : FileSystem) : FileSystem × Except String Unit :=
  let jsonOutput : JValue := .obj (visit extractorPackage []).1
  let fs2 := jsonFileSave fs reportFilename jsonOutput
  match validate jsonOutput with
  | some details =>
      (fs2, Except.error (pathBasename reportFilename ++ schemaErrorText ++ "\n" ++ details))
  | none => (fs2, Except.ok ())

/-- Modelled from the spec: the value of an EnumValue is the textual form of
the value-producing token if the declaration has more than one token, else
the empty string; a missing declaration degrades to the empty string.  This
definition follows the words of the spec and is compared against the code
path enumValueText. -/
def specEnumValueText (decl : Option TsDeclaration) : String :=
  match decl with
  | none => ""
  | some d =>
      if 1 < d.tokens.length then ((d.tokens.getLast?).map TsNode.text).getD ("")
      else ""

/-- A public documentation bundle with no rich text and no parameters. -/
def docPub : ApiDocumentation :=
  { releaseTag := ReleaseTag.Public, summary := none, remarks := none,
    deprecatedMessage := none, parameters := [], returnsMessage := [] }

/-- An alpha documentation bundle. -/
def docAlpha : ApiDocumentation :=
  { docPub with releaseTag := ReleaseTag.Alpha }

/-- A declared parameter x of type number. -/
def paramX : AstParameter :=
  { name := "x", supportedName := true, isOptional := false, isSpread := false,
    type := "number" }

/-- A documentation entry for x recording type string (deliberately different
from the declared type so that the in-place enrichment is observable). -/
def docEntryX : ApiParamDoc :=
  { name := "x", description := [], isOptional := false, isSpread := false,
    type := "string" }

/-- A public function f with declared parameter x and a documentation entry
for x whose recorded type disagrees with the declaration. -/
def fnMut : AstItem :=
  .astFunction ("f") true { docPub with parameters := [(("x"), docEntryX)] } [paramX] ("void")

/-- A public function g with declared parameter x and an empty documentation
parameter map. -/
def fnNoDoc : AstItem :=
  .astFunction ("g") true docPub [paramX] ("void")

/-- A module variable with an unsupported name. -/
def mvBad : AstItem :=
  .astModuleVariable ("v") false docPub ("number") ("42")

/-- A package with an unsupported name. -/
def pkgBad : AstItem := .astPackage ("pkg") false docPub .nil

/-- A small public package. -/
def pkgSmall : AstItem :=
  .astPackage ("pkg") true docPub (.cons mvBad .nil)

/-- A public class with no members. -/
def classEmpty : AstItem :=
  .astStructuredType ("C") true AstItemKind.Class none none none docPub .nil

/-- A public class with one member. -/
def classOne : AstItem :=
  .astStructuredType ("D") true AstItemKind.Class none none none docPub
    (.cons (.astProperty ("p") true docPub { kind := 1, tokens := [] } false false false
      ("number")) .nil)

/-- A public method named with the reserved constructor identifier and a
private access modifier. -/
def ctorMethod : AstItem :=
  .astMethod ("__constructor") true docPub ("constructor();") (some ("private")) false false
    ("void") []

/-- A public item handled by the generic placeholder handler. -/
def genericItem : AstItem :=
  .astMember ("m") true docPub { kind := 5, tokens := [] }

/-- An enum value whose declaration has two distinct tokens. -/
def enumValue2 : AstItem :=
  .astEnumValue ("Red") true docPub
    (some { kind := 2, tokens := [{ pos := 0, text := "Red" }, { pos := 4, text := "1" }] })

/-- An internal enum value. -/
def internalItem : AstItem :=
  .astEnumValue ("Hidden") true { docPub with releaseTag := ReleaseTag.Internal } none

/-- A class with an unsupported name. -/
def clsBad : AstItem :=
  .astStructuredType ("B") false AstItemKind.Class none none none docPub .nil

/-- A declaration with two distinct tokens (an initialized enum value). -/
def decl2 : TsDeclaration :=
  { kind := 2, tokens := [{ pos := 0, text := "Red" }, { pos := 4, text := "1" }] }

/-- The documentation entry for x after enrichment from the declaration. -/
def enrichedEntryX : ApiParamDoc :=
  { docEntryX with isOptional := false, isSpread := false, type := "number" }

/-- The key sequence of a JSON object value, empty for non-objects. -/
def objKeysV (v : JValue) : List String :=
  match v with
  | .obj fields => fields.map Prod.fst
  | _ => []

/-- The declared signature parameters of an item. -/
def AstItem.paramsOf : AstItem → List AstParameter
  | .astFunction _ _ _ ps _ => ps
  | .astMethod _ _ _ _ _ _ _ _ ps => ps
  | _ => []

/-- The recorded types of the parameter documentation entries of an item,
used to observe mutation of the documentation bundle. -/
def probeDocParamTypes (it : AstItem) : List String :=
  it.documentation.parameters.map (fun kv => kv.2.type)

/-- The common shape of a serialized item node: an object carrying a kind
field whose string is in the Kind-Name Table, and summary, remarks and
deprecatedMessage fields. -/
def hasDocNodeFields (v : JValue) : Prop :=
  (∃ fields, v = JValue.obj fields) ∧
  (∃ s, objGetV v ("kind") = some (.str s) ∧ s ∈ jsonKindStrings) ∧
  (objGetV v ("summary")).isSome = true ∧
  (objGetV v ("remarks")).isSome = true ∧
  (objGetV v ("deprecatedMessage")).isSome = true

/-- Wellformedness of the upstream model: a structured type item carries the
Class or the Interface kind tag. -/
def structuredKindOk : AstItem → Prop
  | .astStructuredType _ _ k _ _ _ _ _ =>
      k = AstItemKind.Class ∨ k = AstItemKind.Interface
  | _ => True

section Lemmas

/-- Reading back the key just assigned. -/
theorem lookupKey_setKey_self {α : Type} (o : List (String × α)) (k : String) (v : α) :
    lookupKey (setKey o k v) k = some v := by
  induction o with
  | nil => simp [setKey, lookupKey]
  | cons kv rest ih =>
      by_cases h : kv.1 = k
      · cases kv
        simp_all [setKey, lookupKey]
      · cases kv
        simp_all [setKey, lookupKey]

/-- Assignment leaves the other keys alone. -/
theorem lookupKey_setKey_ne {α : Type} (o : List (String × α)) (k k2 : String) (v : α)
    (h : k2 ≠ k) : lookupKey (setKey o k v) k2 = lookupKey o k2 := by
  have hne : ¬ k = k2 := fun hk => h hk.symm
  induction o with
  | nil =>
      simp only [setKey, lookupKey]
      rw [if_neg hne]
  | cons kv rest ih =>
      cases kv with
      | mk k0 v0 =>
          by_cases h0 : k0 = k
          · subst h0
            simp only [setKey, if_pos rfl, lookupKey]
            rw [if_neg hne, if_neg hne]
          · simp only [setKey, if_neg h0, lookupKey]
            by_cases h2 : k0 = k2
            · rw [if_pos h2, if_pos h2]
            · rw [if_neg h2, if_neg h2, ih]

/-- Assigning a fresh key appends it. -/
theorem setKey_fresh {α : Type} (o : List (String × α)) (k : String) (v : α)
    (h : k ∉ o.map Prod.fst) : setKey o k v = o ++ [(k, v)] := by
  induction o with
  | nil => simp [setKey]
  | cons kv rest ih =>
      cases kv with
      | mk k0 v0 =>
          simp only [List.map_cons, List.mem_cons] at h
          push_neg at h
          have hne : ¬ k0 = k := fun hk => h.1 hk.symm
          simp only [setKey, if_neg hne, List.cons_append, List.cons.injEq, true_and]
          exact ih h.2

/-- The key sequence after assigning a fresh key. -/
theorem objKeys_setKey_fresh (o : JObject) (k : String) (v : JValue)
    (h : k ∉ objKeys o) : objKeys (setKey o k v) = objKeys o ++ [k] := by
  rw [objKeys] at h
  rw [objKeys, setKey_fresh o k v h]
  simp [objKeys]

/-- An item whose release tag fails the visibility gate is returned with the
container untouched and the subtree unvisited. -/
theorem visit_suppressed (astItem : AstItem) (o : JObject)
    (h : tagPass astItem.documentation.releaseTag = false) :
    visit astItem o = (o, astItem) := by
  unfold visit
  rw [h]
  simp

/-- An item whose release tag passes the visibility gate is dispatched to
its kind handler. -/
theorem visit_pass (astItem : AstItem) (o : JObject)
    (h : tagPass astItem.documentation.releaseTag = true) :
    visit astItem o = superVisit astItem o := by
  unfold visit
  rw [h]
  simp only [if_true]
  cases astItem <;> rfl

/-- A handler whose gate rejects the item emits nothing and leaves the item
untouched. -/
theorem superVisit_skip (astItem : AstItem) (o : JObject)
    (h : supportedGate astItem = false) :
    superVisit astItem o = (o, astItem) := by
  cases astItem with
  | astStructuredType n sn k ex im tp doc members =>
      simp only [supportedGate] at h
      simp [superVisit, visitAstStructuredType, h]
  | astEnum n sn doc members =>
      simp only [supportedGate] at h
      simp [superVisit, visitAstEnum, h]
  | astEnumValue n sn doc decl =>
      simp only [supportedGate] at h
      simp [superVisit, visitAstEnumValue, h]
  | astFunction n sn doc params rt =>
      simp only [supportedGate] at h
      simp [superVisit, visitAstFunction, h]
  | astPackage n sn doc members =>
      simp only [supportedGate] at h
      exact Bool.noConfusion h
  | astNamespace n sn doc members =>
      simp only [supportedGate] at h
      simp [superVisit, visitAstNamespace, h]
  | astMember n sn doc decl =>
      simp only [supportedGate] at h
      simp [superVisit, visitAstMember, h]
  | astProperty n sn doc decl iopt iro istat ty =>
      simp only [supportedGate, Bool.and_eq_false_iff] at h
      rcases h with h | h
      · simp [superVisit, visitAstProperty, h]
      · simp only [Bool.not_eq_false', decide_eq_true_eq] at h
        simp [superVisit, visitAstProperty, h]
  | astModuleVariable n sn doc ty v =>
      simp only [supportedGate] at h
      exact Bool.noConfusion h
  | astMethod n sn doc dl am iopt istat rt ps =>
      simp only [supportedGate] at h
      simp [superVisit, visitAstMethod, h]

/-- A handler whose gate accepts a non-package item inserts exactly the
emitted value under the item name. -/
theorem superVisit_emits (astItem : AstItem) (o : JObject)
    (h : supportedGate astItem = true) (hp : astItem.isPackage = false) :
    (superVisit astItem o).1 = setKey o astItem.name (emittedValue astItem) := by
  cases astItem with
  | astStructuredType n sn k ex im tp doc members =>
      simp only [supportedGate] at h
      simp [superVisit, visitAstStructuredType, h, emittedValue, AstItem.name]
  | astEnum n sn doc members =>
      simp only [supportedGate] at h
      simp [superVisit, visitAstEnum, h, emittedValue, AstItem.name]
  | astEnumValue n sn doc decl =>
      simp only [supportedGate] at h
      simp [superVisit, visitAstEnumValue, h, emittedValue, AstItem.name]
  | astFunction n sn doc params rt =>
      simp only [supportedGate] at h
      simp [superVisit, visitAstFunction, h, emittedValue, AstItem.name]
  | astPackage n sn doc members =>
      simp only [AstItem.isPackage] at hp
      exact Bool.noConfusion hp
  | astNamespace n sn doc members =>
      simp only [supportedGate] at h
      simp [superVisit, visitAstNamespace, h, emittedValue, AstItem.name]
  | astMember n sn doc decl =>
      simp only [supportedGate] at h
      simp [superVisit, visitAstMember, h, emittedValue, AstItem.name]
  | astProperty n sn doc decl iopt iro istat ty =>
      simp only [supportedGate, Bool.and_eq_true, Bool.not_eq_true', decide_eq_false_iff_not]
        at h
      simp [superVisit, visitAstProperty, h.1, h.2, emittedValue, AstItem.name]
  | astModuleVariable n sn doc ty v =>
      simp [superVisit, visitAstModuleVariable, emittedValue, AstItem.name]
  | astMethod n sn doc dl am iopt istat rt ps =>
      simp only [supportedGate] at h
      simp [superVisit, visitAstMethod, h, emittedValue, AstItem.name]

/-- A non-emitting item leaves the container and itself untouched. -/
theorem visit_not_emits (astItem : AstItem) (o : JObject)
    (h : emits astItem = false) : visit astItem o = (o, astItem) := by
  rcases hb : tagPass astItem.documentation.releaseTag with _ | _
  · exact visit_suppressed astItem o hb
  · rw [visit_pass astItem o hb]
    simp only [emits, hb, Bool.true_and] at h
    exact superVisit_skip astItem o h

/-- An emitting non-package item inserts exactly its emitted value under its
name. -/
theorem visit_emits (astItem : AstItem) (o : JObject)
    (h : emits astItem = true) (hp : astItem.isPackage = false) :
    (visit astItem o).1 = setKey o astItem.name (emittedValue astItem) := by
  simp only [emits, Bool.and_eq_true] at h
  rw [visit_pass astItem o h.1]
  exact superVisit_emits astItem o h.2 hp

/-- Unfolding one step of the parameter loop. -/
theorem applyApiParams_cons (p : AstParameter) (ps : List AstParameter)
    (dps : List (String × ApiParamDoc)) :
    applyApiParams (p :: ps) dps =
      applyApiParams ps
        (mapEntry dps p.name (fun entry => (visitApiParam p (some entry)).getD entry)) := rfl

/-- The in-place entry update keeps the key sequence. -/
theorem mapEntry_fst {α : Type} (l : List (String × α)) (k : String) (f : α → α) :
    (mapEntry l k f).map Prod.fst = l.map Prod.fst := by
  induction l with
  | nil => rfl
  | cons kv rest ih =>
      by_cases h : kv.1 = k
      · simp [mapEntry, h] at ih ⊢
        exact ih
      · simp [mapEntry, h] at ih ⊢
        exact ih

/-- The parameter loop keeps the key sequence of the documentation map. -/
theorem applyApiParams_fst (params : List AstParameter)
    (dps : List (String × ApiParamDoc)) :
    (applyApiParams params dps).map Prod.fst = dps.map Prod.fst := by
  induction params generalizing dps with
  | nil => rfl
  | cons p ps ih => rw [applyApiParams_cons, ih, mapEntry_fst]

/-- Unfolding one step of the entry update. -/
theorem mapEntry_cons {α : Type} (k0 : String) (v0 : α) (l : List (String × α)) (k : String)
    (f : α → α) :
    mapEntry ((k0, v0) :: l) k f =
      (if k0 = k then (k0, f v0) else (k0, v0)) :: mapEntry l k f := rfl

/-- Unfolding one step of the object read. -/
theorem lookupKey_cons {α : Type} (k0 : String) (v0 : α) (l : List (String × α)) (k : String) :
    lookupKey ((k0, v0) :: l) k = if k0 = k then some v0 else lookupKey l k := rfl

/-- Reading the updated entry back. -/
theorem lookupKey_mapEntry_self {α : Type} (l : List (String × α)) (k : String) (f : α → α) :
    lookupKey (mapEntry l k f) k = (lookupKey l k).map f := by
  induction l with
  | nil => rfl
  | cons kv rest ih =>
      cases kv with
      | mk k0 v0 =>
          rw [mapEntry_cons]
          by_cases h : k0 = k
          · rw [if_pos h, lookupKey_cons, lookupKey_cons, if_pos h, if_pos h]
            rfl
          · rw [if_neg h, lookupKey_cons, lookupKey_cons, if_neg h, if_neg h]
            exact ih

/-- The entry update leaves the other keys alone. -/
theorem lookupKey_mapEntry_ne {α : Type} (l : List (String × α)) (k k2 : String) (f : α → α)
    (h : k2 ≠ k) : lookupKey (mapEntry l k f) k2 = lookupKey l k2 := by
  induction l with
  | nil => rfl
  | cons kv rest ih =>
      cases kv with
      | mk k0 v0 =>
          rw [mapEntry_cons]
          by_cases h0 : k0 = k
          · rw [if_pos h0, lookupKey_cons, lookupKey_cons]
            have h2 : ¬ k0 = k2 := fun hk => h (hk ▸ h0)
            rw [if_neg h2, if_neg h2]
            exact ih
          · rw [if_neg h0, lookupKey_cons, lookupKey_cons]
            by_cases h2 : k0 = k2
            · rw [if_pos h2, if_pos h2]
            · rw [if_neg h2, if_neg h2]
              exact ih

/-- The parameter loop leaves keys named by no declared parameter alone. -/
theorem applyApiParams_untouched (params : List AstParameter)
    (dps : List (String × ApiParamDoc)) (n : String)
    (h : ∀ p ∈ params, p.name ≠ n) :
    lookupKey (applyApiParams params dps) n = lookupKey dps n := by
  induction params generalizing dps with
  | nil => rfl
  | cons p ps ih =>
      rw [applyApiParams_cons]
      rw [ih _ (fun q hq => h q (List.mem_cons_of_mem p hq))]
      exact lookupKey_mapEntry_ne _ _ _ _ (fun hk => h p (List.mem_cons_self p ps) hk.symm)
        |>.symm ▸ rfl

/-- A declared parameter with a supported name and a documentation entry gets
its entry overwritten with the declared optionality, spread flag and type. -/
theorem applyApiParams_enriched (params : List AstParameter)
    (dps : List (String × ApiParamDoc)) (p : AstParameter) (e : ApiParamDoc)
    (hnd : (params.map AstParameter.name).Nodup) (hp : p ∈ params)
    (hsn : p.supportedName = true) (he : lookupKey dps p.name = some e) :
    lookupKey (applyApiParams params dps) p.name =
      some { e with isOptional := p.isOptional, isSpread := p.isSpread, type := p.type } := by
  induction params generalizing dps with
  | nil => cases hp
  | cons q ps ih =>
      simp only [List.map_cons, List.nodup_cons] at hnd
      rcases List.mem_cons.mp hp with rfl | hmem
      · rw [applyApiParams_cons]
        have hq : ∀ r ∈ ps, r.name ≠ p.name := by
          intro r hr hrn
          exact hnd.1 (hrn ▸ List.mem_map_of_mem AstParameter.name hr)
        rw [applyApiParams_untouched ps _ p.name hq, lookupKey_mapEntry_self, he]
        simp [visitApiParam, hsn]
      · rw [applyApiParams_cons]
        have hqp : p.name ≠ q.name := by
          intro hEq
          exact hnd.1 (hEq ▸ List.mem_map_of_mem AstParameter.name hmem)
        exact ih _ hnd.2 hmem (by rw [lookupKey_mapEntry_ne _ _ _ _ hqp]; exact he)

/-- Keys written by the member loop: the container keys grow by exactly the
names of the emitting members, in enumeration order. -/
theorem visitList_keys (l : AstItemList) (o : JObject)
    (h1 : ((l.toList.filter emits).map AstItem.name).Nodup)
    (h2 : ∀ k ∈ objKeys o, ¬ k ∈ (l.toList.filter emits).map AstItem.name)
    (h3 : ∀ m ∈ l.toList, m.isPackage = false) :
    objKeys (visitList l o).1 = objKeys o ++ (l.toList.filter emits).map AstItem.name := by
  cases l with
  | nil => simp [visitList, AstItemList.toList]
  | cons head tail =>
      simp only [AstItemList.toList] at h1 h2 h3 ⊢
      rcases he : emits head with _ | _
      · have hne : ¬ (emits head = true) := by simp [he]
        rw [List.filter_cons_of_neg hne] at h1 h2 ⊢
        have hv := visit_not_emits head o he
        simp only [visitList, hv]
        exact visitList_keys tail o h1 h2 (fun m hm => h3 m (List.mem_cons_of_mem head hm))
      · rw [List.filter_cons_of_pos he] at h1 h2 ⊢
        simp only [List.map_cons, List.nodup_cons] at h1
        have hpk : head.isPackage = false := h3 head (List.mem_cons_self head tail.toList)
        have hv := visit_emits head o he hpk
        have hfresh : ¬ head.name ∈ objKeys o := by
          intro hk
          exact (h2 head.name hk) (by simp)
        simp only [visitList, hv]
        have hkeys := objKeys_setKey_fresh o head.name (emittedValue head) hfresh
        have ih2 := visitList_keys tail (setKey o head.name (emittedValue head))
          h1.2
          (by
            intro k hk hkin
            rw [hkeys] at hk
            rcases List.mem_append.mp hk with hk | hk
            · exact (h2 k hk)
                (by simp only [List.map_cons, List.mem_cons]; exact Or.inr hkin)
            · simp at hk
              subst hk
              exact h1.1 hkin)
          (fun m hm => h3 m (List.mem_cons_of_mem head hm))
        rw [ih2, hkeys]
        simp

/-- Removing a member whose visit is the identity leaves the entries emitted
for its siblings unchanged. -/
theorem visitList_skip_middle (item : AstItem) (hid : ∀ o2, visit item o2 = (o2, item))
    (pre post : AstItemList) (o : JObject) :
    (visitList (pre.append (.cons item post)) o).1 = (visitList (pre.append post) o).1 := by
  cases pre with
  | nil => simp [AstItemList.append, visitList, hid o]
  | cons h t =>
      simp only [AstItemList.append, visitList]
      exact visitList_skip_middle item hid t post (visit h o).1

mutual
/-- The traversal leaves every field of every item untouched except the
parameter documentation entries. -/
theorem eraseParams_visit (astItem : AstItem) (o : JObject) :
    eraseParams ((visit astItem o).2) = eraseParams astItem := by
  rcases hb : tagPass astItem.documentation.releaseTag with _ | _
  · rw [visit_suppressed astItem o hb]
  · rw [visit_pass astItem o hb]
    cases astItem with
    | astStructuredType n sn k ex im tp doc members =>
        by_cases hsn : sn
        · simp only [superVisit, visitAstStructuredType, hsn, Bool.not_true,
            Bool.false_eq_true, if_false, eraseParams]
          by_cases hlen : members.toList.length ≠ 0
          · simp only [if_pos hlen, eraseParamsList_visitList members []]
          · simp only [if_neg hlen]
        · simp only [Bool.not_eq_true] at hsn
          simp [superVisit, visitAstStructuredType, hsn]
    | astEnum n sn doc members =>
        by_cases hsn : sn
        · simp only [superVisit, visitAstEnum, hsn, Bool.not_true, Bool.false_eq_true,
            if_false, eraseParams, eraseParamsList_visitList members []]
        · simp only [Bool.not_eq_true] at hsn
          simp [superVisit, visitAstEnum, hsn]
    | astEnumValue n sn doc decl => rfl
    | astFunction n sn doc params rt =>
        by_cases hsn : sn
        · simp [superVisit, visitAstFunction, hsn, eraseParams, eraseDoc]
        · simp only [Bool.not_eq_true] at hsn
          simp [superVisit, visitAstFunction, hsn]
    | astPackage n sn doc members =>
        simp only [superVisit, visitAstPackage, eraseParams,
          eraseParamsList_visitList members []]
    | astNamespace n sn doc members =>
        by_cases hsn : sn
        · simp only [superVisit, visitAstNamespace, hsn, Bool.not_true, Bool.false_eq_true,
            if_false, eraseParams, eraseParamsList_visitList members []]
        · simp only [Bool.not_eq_true] at hsn
          simp [superVisit, visitAstNamespace, hsn]
    | astMember n sn doc decl => rfl
    | astProperty n sn doc decl iopt iro istat ty => rfl
    | astModuleVariable n sn doc ty v => rfl
    | astMethod n sn doc dl am iopt istat rt ps =>
        by_cases hsn : sn
        · simp [superVisit, visitAstMethod, hsn, eraseParams, eraseDoc]
        · simp only [Bool.not_eq_true] at hsn
          simp [superVisit, visitAstMethod, hsn]

/-- List version of the frame property. -/
theorem eraseParamsList_visitList (l : AstItemList) (o : JObject) :
    eraseParamsList ((visitList l o).2) = eraseParamsList l := by
  cases l with
  | nil => rfl
  | cons h t =>
      simp only [visitList, eraseParamsList]
      rw [eraseParams_visit h o, eraseParamsList_visitList t (visit h o).1]
end

/-- The value field of an emitted enum value agrees with the specified rule
whenever the declaration tokens are pairwise distinct nodes. -/
theorem enumValueText_eq_spec (decl : Option TsDeclaration)
    (h : ∀ d, decl = some d → d.tokens.Nodup) :
    enumValueText decl = specEnumValueText decl := by
  cases decl with
  | none => rfl
  | some d =>
      have hnd := h d rfl
      rcases d with ⟨k, tokens⟩
      simp only at hnd
      cases tokens with
      | nil => rfl
      | cons t1 rest =>
          cases rest with
          | nil => simp [enumValueText, specEnumValueText]
          | cons t2 rest2 =>
              have hne2 : (t2 :: rest2 : List TsNode) ≠ [] := List.cons_ne_nil t2 rest2
              have hL : (t1 :: t2 :: rest2).getLast? = some ((t2 :: rest2).getLast hne2) := by
                rw [List.getLast?_cons_cons]
                exact List.getLast?_eq_getLast_of_ne_nil hne2
              have hmem : (t2 :: rest2).getLast hne2 ∈ t2 :: rest2 := List.getLast_mem hne2
              have hne : t1 ≠ (t2 :: rest2).getLast hne2 := by
                intro hEq
                rw [List.nodup_cons] at hnd
                exact hnd.1 (hEq ▸ hmem)
              have hlen : 1 < (t1 :: t2 :: rest2 : List TsNode).length := by
                simp
              simp only [enumValueText, specEnumValueText]
              simp [hL, hne, hlen]

/-- Serialization of the parameter map keeps its key sequence. -/
theorem paramsToJson_keys (ps : List (String × ApiParamDoc)) :
    objKeysV (paramsToJson ps) = ps.map Prod.fst := by
  simp [paramsToJson, objKeysV, List.map_map]

/-- The structured type node is an object in both member count branches. -/
theorem structuredTypeNode_isObj (k : AstItemKind) (ex im : Option String)
    (tp : Option (List String)) (doc : ApiDocumentation) (cnt : Nat) (mn : JObject) :
    ∃ fields, structuredTypeNode k ex im tp doc cnt mn = JValue.obj fields :=
  ⟨_, rfl⟩

/-- The kind field of the structured type node. -/
theorem structuredTypeNode_get_kind (k : AstItemKind) (ex im : Option String)
    (tp : Option (List String)) (doc : ApiDocumentation) (cnt : Nat) (mn : JObject) :
    objGetV (structuredTypeNode k ex im tp doc cnt mn) ("kind")
      = some (.str (if k = AstItemKind.Class then convertKindToJson AstItemKind.Class
          else if k = AstItemKind.Interface then convertKindToJson AstItemKind.Interface
          else "")) := by
  by_cases h : cnt ≠ 0 <;> simp [structuredTypeNode, h, objGetV, lookupKey]

/-- The summary field of the structured type node. -/
theorem structuredTypeNode_get_summary (k : AstItemKind) (ex im : Option String)
    (tp : Option (List String)) (doc : ApiDocumentation) (cnt : Nat) (mn : JObject) :
    objGetV (structuredTypeNode k ex im tp doc cnt mn) ("summary")
      = some (jlist doc.summary) := by
  by_cases h : cnt ≠ 0 <;> simp [structuredTypeNode, h, objGetV, lookupKey]

/-- The remarks field of the structured type node. -/
theorem structuredTypeNode_get_remarks (k : AstItemKind) (ex im : Option String)
    (tp : Option (List String)) (doc : ApiDocumentation) (cnt : Nat) (mn : JObject) :
    objGetV (structuredTypeNode k ex im tp doc cnt mn) ("remarks")
      = some (jlist doc.remarks) := by
  by_cases h : cnt ≠ 0 <;> simp [structuredTypeNode, h, objGetV, lookupKey]

/-- The deprecatedMessage field of the structured type node. -/
theorem structuredTypeNode_get_deprecated (k : AstItemKind) (ex im : Option String)
    (tp : Option (List String)) (doc : ApiDocumentation) (cnt : Nat) (mn : JObject) :
    objGetV (structuredTypeNode k ex im tp doc cnt mn) ("deprecatedMessage")
      = some (jlist doc.deprecatedMessage) := by
  by_cases h : cnt ≠ 0 <;> simp [structuredTypeNode, h, objGetV, lookupKey]

/-- The isBeta field of the structured type node. -/
theorem structuredTypeNode_get_isBeta (k : AstItemKind) (ex im : Option String)
    (tp : Option (List String)) (doc : ApiDocumentation) (cnt : Nat) (mn : JObject) :
    objGetV (structuredTypeNode k ex im tp doc cnt mn) ("isBeta")
      = some (isBetaOf doc) := by
  by_cases h : cnt ≠ 0 <;> simp [structuredTypeNode, h, objGetV, lookupKey]

/-- The members sub-container of the structured type node, present exactly
when the raw member list is non-empty. -/
theorem structuredTypeNode_get_members (k : AstItemKind) (ex im : Option String)
    (tp : Option (List String)) (doc : ApiDocumentation) (cnt : Nat) (mn : JObject) :
    objGetV (structuredTypeNode k ex im tp doc cnt mn) ("members")
      = if cnt ≠ 0 then some (.obj mn) else none := by
  by_cases h : cnt ≠ 0 <;> simp [structuredTypeNode, h, objGetV, lookupKey]

end Lemmas

/-- Claim C1: for every item whose releaseTag is Alpha or Internal, visit
returns immediately without writing anything into the target container, so
neither the item nor any descendant appears in the output (the subtree is
never dispatched); items tagged None, Public or Beta are dispatched to
their kind handler. -/
theorem c1_release_tag_gate (astItem : AstItem) (o : JObject) :
    ((astItem.documentation.releaseTag = ReleaseTag.Alpha ∨
      astItem.documentation.releaseTag = ReleaseTag.Internal) →
      visit astItem o = (o, astItem)) ∧
    ((astItem.documentation.releaseTag = ReleaseTag.None ∨
      astItem.documentation.releaseTag = ReleaseTag.Public ∨
      astItem.documentation.releaseTag = ReleaseTag.Beta) →
      visit astItem o = superVisit astItem o) := by
  constructor
  · intro h
    apply visit_suppressed
    rcases h with h | h <;> rw [h] <;> rfl
  · intro h
    apply visit_pass
    rcases h with h | h | h <;> rw [h] <;> rfl

/-- Witness for C1 at an internal enum value and a public function. -/
theorem c1_release_tag_gate_witness :
    visit internalItem [] = ([], internalItem) ∧
    visit fnMut [] = superVisit fnMut [] := by
  constructor
  · exact (c1_release_tag_gate internalItem []).1 (Or.inr rfl)
  · exact (c1_release_tag_gate fnMut []).2 (Or.inr (Or.inl rfl))

/-- Counterexample to C2 as stated: the module variable handler has no
supportedName gate, and the package handler writes its fixed keys
unconditionally, so an item with supportedName false is still emitted for
those two kinds. -/
theorem c2_counterexample :
    mvBad.supportedName = false ∧
    pkgBad.supportedName = false ∧
    superVisit mvBad [] ≠ ([], mvBad) ∧
    superVisit pkgBad [] ≠ ([], pkgBad) ∧
    objKeys (superVisit mvBad []).1 = [("v")] ∧
    objKeys (superVisit pkgBad []).1 = [("kind"), ("summary"), ("remarks"), ("exports")] := by
  refine ⟨rfl, rfl, ?_, ?_, rfl, rfl⟩
  · intro h
    have h2 := congrArg (fun p => p.1.length) h
    exact absurd h2 (by decide)
  · intro h
    have h2 := congrArg (fun p => p.1.length) h
    exact absurd h2 (by decide)

/-- Claim C2 amended: for every kind except ModuleVariable (whose handler
lacks the supportedName gate) and Package (whose handler writes the fixed
root keys unconditionally), an item with supportedName false is emitted
nowhere: the handler and the full visit leave the container and the item
untouched, and the entries emitted for its siblings are the same as if the
item were not present at all. -/
theorem c2_supported_name_gate (astItem : AstItem)
    (hsn : astItem.supportedName = false)
    (hmv : astItem.isModuleVariable = false)
    (hpk : astItem.isPackage = false) :
    (∀ o : JObject, superVisit astItem o = (o, astItem)) ∧
    (∀ o : JObject, visit astItem o = (o, astItem)) ∧
    (∀ (pre post : AstItemList) (o : JObject),
      (visitList (pre.append (.cons astItem post)) o).1
        = (visitList (pre.append post) o).1) := by
  have hgate : supportedGate astItem = false := by
    cases astItem <;>
      simp_all [supportedGate, AstItem.supportedName, AstItem.isModuleVariable,
        AstItem.isPackage]
  have hsv : ∀ o : JObject, superVisit astItem o = (o, astItem) :=
    fun o => superVisit_skip astItem o hgate
  have hv : ∀ o : JObject, visit astItem o = (o, astItem) := by
    intro o
    rcases hb : tagPass astItem.documentation.releaseTag with _ | _
    · exact visit_suppressed astItem o hb
    · rw [visit_pass astItem o hb]
      exact hsv o
  exact ⟨hsv, hv, fun pre post o => visitList_skip_middle astItem hv pre post o⟩

/-- Witness for C2 amended at a class with an unsupported name. -/
theorem c2_supported_name_gate_witness :
    superVisit clsBad [] = ([], clsBad) ∧
    visit clsBad [] = ([], clsBad) ∧
    (visitList (AstItemList.nil.append (.cons clsBad .nil)) []).1
      = (visitList (AstItemList.nil.append .nil) []).1 := by
  obtain ⟨h1, h2, h3⟩ := c2_supported_name_gate clsBad rfl rfl rfl
  exact ⟨h1 [], h2 [], h3 .nil .nil []⟩

/-- Claim C3: for every container item the key sequence of the member
container it emits is exactly the name sequence of its members in model
order after removing non-emitting (suppressed or skipped) members; each
emitting member contributes exactly its own key, and the sub-containers of
the four container kinds hold exactly the result of visiting the member
list into a fresh container.  The Nodup and no-package hypotheses encode
the input contract of the upstream model, whose member containers are keyed
by name and whose package is only ever the document root. -/
theorem c3_order_preservation :
    (∀ l : AstItemList,
      ((l.toList.filter emits).map AstItem.name).Nodup →
      (∀ m ∈ l.toList, m.isPackage = false) →
      objKeys (visitList l []).1 = (l.toList.filter emits).map AstItem.name) ∧
    (∀ (astItem : AstItem) (o : JObject), emits astItem = true →
      astItem.isPackage = false →
      (superVisit astItem o).1 = setKey o astItem.name (emittedValue astItem)) ∧
    (∀ n k ex im tp doc members, members ≠ AstItemList.nil →
      objGetV (emittedValue (.astStructuredType n true k ex im tp doc members)) ("members")
        = some (.obj (visitList members []).1)) ∧
    (∀ n doc members,
      objGetV (emittedValue (.astEnum n true doc members)) ("values")
        = some (.obj (visitList members []).1)) ∧
    (∀ n doc members,
      objGetV (emittedValue (.astNamespace n true doc members)) ("exports")
        = some (.obj (visitList members []).1)) ∧
    (∀ n sn doc members o,
      objGetV (.obj (superVisit (.astPackage n sn doc members) o).1) ("exports")
        = some (.obj (visitList members []).1)) := by
  refine ⟨?_, ?_, ?_, ?_, ?_, ?_⟩
  · intro l h1 h3
    have h := visitList_keys l [] h1 (by intro k hk; simp [objKeys] at hk) h3
    simpa [objKeys] using h
  · intro astItem o he hp
    simp only [emits, Bool.and_eq_true] at he
    exact superVisit_emits astItem o he.2 hp
  · intro n k ex im tp doc members hne
    cases members with
    | nil => exact absurd rfl hne
    | cons h t =>
        simp [emittedValue, structuredTypeNode, objGetV, lookupKey, AstItemList.toList]
  · intro n doc members
    simp [emittedValue, enumNode, objGetV, lookupKey]
  · intro n doc members
    simp [emittedValue, namespaceNode, objGetV, lookupKey]
  · intro n sn doc members o
    simp [superVisit, visitAstPackage, objGetV, lookupKey_setKey_self]

/-- Witness for C3 at a two-member list and an empty enum. -/
theorem c3_order_preservation_witness :
    objKeys (visitList (AstItemList.cons classEmpty (AstItemList.cons mvBad .nil)) []).1
      = [("C"), ("v")] ∧
    objGetV (emittedValue (.astEnum ("E") true docPub .nil)) ("values") = some (.obj []) := by
  obtain ⟨h1, h2, h3, h4, h5, h6⟩ := c3_order_preservation
  constructor
  · exact (h1 (AstItemList.cons classEmpty (AstItemList.cons mvBad .nil))
      (by decide) (by decide)).trans rfl
  · exact h4 ("E") docPub .nil

/-- Claim C4: a method named with the reserved constructor identifier is
emitted, for every access modifier, as a node with exactly the fields kind,
signature, parameters, deprecatedMessage, summary, remarks, whose kind is
the constructor entry of the Kind-Name Table; in particular the node never
contains accessModifier, isOptional, isStatic or returnValue. -/
theorem c4_constructor_shape (doc : ApiDocumentation) (dl : String) (am : Option String)
    (iopt istat : Bool) (rt : String) (ps : List AstParameter) (o : JObject) :
    (superVisit (.astMethod ("__constructor") true doc dl am iopt istat rt ps) o).1
      = setKey o ("__constructor")
          (.obj [("kind", .str (convertKindToJson AstItemKind.Constructor)),
                 ("signature", .str dl),
                 ("parameters", paramsToJson (applyApiParams ps doc.parameters)),
                 ("deprecatedMessage", jlist doc.deprecatedMessage),
                 ("summary", jlist doc.summary),
                 ("remarks", jlist doc.remarks)]) ∧
    convertKindToJson AstItemKind.Constructor = "constructor" := by
  constructor
  · simp [superVisit, visitAstMethod, methodNode]
  · rfl

/-- Claim C5: writeJsonFile always persists the document at the output path,
also when validation fails; on a schema violation the run fails with a
message naming the output file and carrying the structured error details,
while the persisted file keeps the malformed content; a run only succeeds
when the validator accepts the document. -/
theorem c5_write_then_validate (validate : JValue → Option String)
    (reportFilename : String) (pkg : AstItem) (fs : FileSystem) :
    fsRead (writeJsonFile validate reportFilename pkg fs).1 reportFilename
      = some (.obj (visit pkg []).1) ∧
    (∀ details, validate (.obj (visit pkg []).1) = some details →
      (writeJsonFile validate reportFilename pkg fs).2
        = Except.error (pathBasename reportFilename ++ schemaErrorText ++ "\n" ++ details)) ∧
    ((writeJsonFile validate reportFilename pkg fs).2 = Except.ok () →
      validate (.obj (visit pkg []).1) = none) := by
  unfold writeJsonFile jsonFileSave
  rcases hv : validate (.obj (visit pkg []).1) with _ | details
  · simp [hv, fsRead, lookupKey_setKey_self]
  · simp [hv, fsRead, lookupKey_setKey_self]

/-- Witness for C5 at a rejecting validator and a small package. -/
theorem c5_write_then_validate_witness :
    (writeJsonFile (fun _ => some ("detail")) ("a/out.api.json") pkgSmall []).2
      = Except.error ("out.api.json" ++ schemaErrorText ++ "\n" ++ "detail") ∧
    fsRead (writeJsonFile (fun _ => some ("detail")) ("a/out.api.json") pkgSmall []).1
      ("a/out.api.json") = some (.obj (visit pkgSmall []).1) := by
  obtain ⟨h1, h2, h3⟩ :=
    c5_write_then_validate (fun _ => some ("detail")) ("a/out.api.json") pkgSmall []
  exact ⟨(h2 ("detail") rfl).trans rfl, h1⟩

/-- Counterexample to C6 as stated: visiting a function whose declared
parameter type disagrees with its documentation entry overwrites the entry
in place, so the item tree after the traversal differs from the tree
before it. -/
theorem c6_counterexample : (visit fnMut []).2 ≠ fnMut := by
  intro h
  have h2 := congrArg probeDocParamTypes h
  exact absurd h2 (by decide)

/-- Claim C6 amended: the traversal mutates nothing in the upstream item
tree except the parameter documentation entries of the documentation
bundles (whose isOptional, isSpread and type are overwritten from the
declared parameter); erasing the parameter maps on both sides, every item
of the tree holds exactly the values it held before the traversal. -/
theorem c6_frame (astItem : AstItem) (o : JObject) :
    eraseParams ((visit astItem o).2) = eraseParams astItem :=
  eraseParams_visit astItem o

/-- Counterexample to C7 as stated: the constructor node carries no isBeta
field, and the generic placeholder handler emits a plain string instead of
an object with kind, isBeta and documentation fields. -/
theorem c7_counterexample :
    emits ctorMethod = true ∧
    (superVisit ctorMethod []).1 = [(("__constructor"), emittedValue ctorMethod)] ∧
    objGetV (emittedValue ctorMethod) ("isBeta") = none ∧
    emits genericItem = true ∧
    (superVisit genericItem []).1 = [(("m"), emittedValue genericItem)] ∧
    emittedValue genericItem = .str ("astMember-5") ∧
    (∀ fields, emittedValue genericItem ≠ JValue.obj fields) := by
  refine ⟨rfl, rfl, rfl, rfl, rfl, rfl, ?_⟩
  intro fields h
  exact JValue.noConfusion h

/-- Claim C7 amended: every emitted non-package node is an object with a
kind string from the Kind-Name Table and summary, remarks and
deprecatedMessage fields, and carries an isBeta boolean — except that a
constructor node carries all of these but no isBeta field, and the generic
placeholder handler emits a plain string instead of an object.  The
structuredKindOk hypothesis encodes the input contract that a structured
type is a class or an interface. -/
theorem c7_node_shape (astItem : AstItem) (he : emits astItem = true)
    (hp : astItem.isPackage = false) (hsk : structuredKindOk astItem) :
    (astItem.isGenericMember = true → ∃ s, emittedValue astItem = .str s) ∧
    (astItem.isGenericMember = false → astItem.isCtorMethod = true →
      hasDocNodeFields (emittedValue astItem) ∧
      objGetV (emittedValue astItem) ("kind")
        = some (.str (convertKindToJson AstItemKind.Constructor)) ∧
      objGetV (emittedValue astItem) ("isBeta") = none) ∧
    (astItem.isGenericMember = false → astItem.isCtorMethod = false →
      hasDocNodeFields (emittedValue astItem) ∧
      (∃ b, objGetV (emittedValue astItem) ("isBeta") = some (.bool b))) := by
  cases astItem with
  | astStructuredType n sn k ex im tp doc members =>
      refine ⟨fun hg => Bool.noConfusion hg, fun _ hc => Bool.noConfusion hc, fun _ _ => ?_⟩
      refine ⟨⟨structuredTypeNode_isObj k ex im tp doc _ _,
        ⟨_, structuredTypeNode_get_kind k ex im tp doc _ _, ?_⟩, ?_, ?_, ?_⟩,
        ⟨_, structuredTypeNode_get_isBeta k ex im tp doc _ _⟩⟩
      · rcases hsk with hk | hk <;> subst hk <;> decide
      · show (objGetV (structuredTypeNode k ex im tp doc members.toList.length
            (visitList members []).1) ("summary")).isSome = true
        rw [structuredTypeNode_get_summary]
        rfl
      · show (objGetV (structuredTypeNode k ex im tp doc members.toList.length
            (visitList members []).1) ("remarks")).isSome = true
        rw [structuredTypeNode_get_remarks]
        rfl
      · show (objGetV (structuredTypeNode k ex im tp doc members.toList.length
            (visitList members []).1) ("deprecatedMessage")).isSome = true
        rw [structuredTypeNode_get_deprecated]
        rfl
  | astEnum n sn doc members =>
      exact ⟨fun hg => Bool.noConfusion hg, fun _ hc => Bool.noConfusion hc,
        fun _ _ => ⟨⟨⟨_, rfl⟩, ⟨_, rfl, by decide⟩, rfl, rfl, rfl⟩, ⟨_, rfl⟩⟩⟩
  | astEnumValue n sn doc decl =>
      exact ⟨fun hg => Bool.noConfusion hg, fun _ hc => Bool.noConfusion hc,
        fun _ _ => ⟨⟨⟨_, rfl⟩, ⟨_, rfl, by decide⟩, rfl, rfl, rfl⟩, ⟨_, rfl⟩⟩⟩
  | astFunction n sn doc params rt =>
      exact ⟨fun hg => Bool.noConfusion hg, fun _ hc => Bool.noConfusion hc,
        fun _ _ => ⟨⟨⟨_, rfl⟩, ⟨_, rfl, by decide⟩, rfl, rfl, rfl⟩, ⟨_, rfl⟩⟩⟩
  | astPackage n sn doc members => exact Bool.noConfusion hp
  | astNamespace n sn doc members =>
      exact ⟨fun hg => Bool.noConfusion hg, fun _ hc => Bool.noConfusion hc,
        fun _ _ => ⟨⟨⟨_, rfl⟩, ⟨_, rfl, by decide⟩, rfl, rfl, rfl⟩, ⟨_, rfl⟩⟩⟩
  | astMember n sn doc decl =>
      exact ⟨fun _ => ⟨_, rfl⟩, fun hg _ => Bool.noConfusion hg,
        fun hg _ => Bool.noConfusion hg⟩
  | astProperty n sn doc decl iopt iro istat ty =>
      exact ⟨fun hg => Bool.noConfusion hg, fun _ hc => Bool.noConfusion hc,
        fun _ _ => ⟨⟨⟨_, rfl⟩, ⟨_, rfl, by decide⟩, rfl, rfl, rfl⟩, ⟨_, rfl⟩⟩⟩
  | astModuleVariable n sn doc ty v =>
      exact ⟨fun hg => Bool.noConfusion hg, fun _ hc => Bool.noConfusion hc,
        fun _ _ => ⟨⟨⟨_, rfl⟩, ⟨_, rfl, by decide⟩, rfl, rfl, rfl⟩, ⟨_, rfl⟩⟩⟩
  | astMethod n sn doc dl am iopt istat rt ps =>
      refine ⟨fun hg => Bool.noConfusion hg, ?_, ?_⟩
      · intro _ hc
        have hn : n = "__constructor" := of_decide_eq_true hc
        subst hn
        exact ⟨⟨⟨_, rfl⟩, ⟨_, rfl, by decide⟩, rfl, rfl, rfl⟩, rfl, rfl⟩
      · intro _ hc
        have hn : ¬ (n = "__constructor") := of_decide_eq_false hc
        have hev : emittedValue (.astMethod n sn doc dl am iopt istat rt ps)
            = .obj [("kind", .str (convertKindToJson AstItemKind.Method)),
                    ("signature", .str dl),
                    ("accessModifier", .str (am.getD (""))),
                    ("isOptional", .bool iopt),
                    ("isStatic", .bool istat),
                    ("returnValue", returnValueNode rt doc),
                    ("parameters", paramsToJson (applyApiParams ps doc.parameters)),
                    ("deprecatedMessage", jlist doc.deprecatedMessage),
                    ("summary", jlist doc.summary),
                    ("remarks", jlist doc.remarks),
                    ("isBeta", isBetaOf doc)] := by
          simp only [emittedValue, methodNode, if_neg hn]
        rw [hev]
        exact ⟨⟨⟨_, rfl⟩, ⟨_, rfl, by decide⟩, rfl, rfl, rfl⟩, ⟨_, rfl⟩⟩

/-- Witness for C7 amended at an empty public class. -/
theorem c7_node_shape_witness :
    hasDocNodeFields (emittedValue classEmpty) ∧
    (∃ b, objGetV (emittedValue classEmpty) ("isBeta") = some (.bool b)) :=
  (c7_node_shape classEmpty rfl rfl (Or.inl rfl)).2.2 rfl rfl

/-- Counterexample to C8 as stated: a structured type with an empty member
list is emitted without any members sub-container. -/
theorem c8_counterexample :
    emits classEmpty = true ∧
    (superVisit classEmpty []).1 = [(("C"), emittedValue classEmpty)] ∧
    objGetV (emittedValue classEmpty) ("members") = none :=
  ⟨rfl, rfl, rfl⟩

/-- Claim C8 amended: enums, namespaces and the package always carry their
fixed sub-container key, also when the member list is empty; a structured
type carries its members sub-container exactly when its raw member list is
non-empty, and omits the key when the list is empty. -/
theorem c8_subcontainers :
    (∀ n k ex im tp doc,
      objGetV (emittedValue (.astStructuredType n true k ex im tp doc .nil)) ("members")
        = none) ∧
    (∀ n k ex im tp doc members, members ≠ AstItemList.nil →
      objGetV (emittedValue (.astStructuredType n true k ex im tp doc members)) ("members")
        = some (.obj (visitList members []).1)) ∧
    (∀ n doc members,
      objGetV (emittedValue (.astEnum n true doc members)) ("values")
        = some (.obj (visitList members []).1)) ∧
    (∀ n doc members,
      objGetV (emittedValue (.astNamespace n true doc members)) ("exports")
        = some (.obj (visitList members []).1)) ∧
    (∀ n sn doc members o,
      objGetV (.obj (superVisit (.astPackage n sn doc members) o).1) ("exports")
        = some (.obj (visitList members []).1)) := by
  refine ⟨?_, ?_, ?_, ?_, ?_⟩
  · intro n k ex im tp doc
    rfl
  · intro n k ex im tp doc members hne
    cases members with
    | nil => exact absurd rfl hne
    | cons hd tl => rfl
  · intro n doc members
    rfl
  · intro n doc members
    rfl
  · intro n sn doc members o
    simp [superVisit, visitAstPackage, objGetV, lookupKey_setKey_self]

/-- Witness for C8 amended at a one-member class. -/
theorem c8_subcontainers_witness :
    objGetV (emittedValue (.astStructuredType ("D") true AstItemKind.Class none none none
        docPub (.cons genericItem .nil))) ("members")
      = some (.obj (visitList (.cons genericItem .nil) []).1) :=
  c8_subcontainers.2.1 ("D") AstItemKind.Class none none none docPub
    (.cons genericItem .nil) (fun h => AstItemList.noConfusion h)

/-- Counterexample to C9 as stated: a function with a declared parameter x
and no documentation entry for it emits a parameters map with no entry at
all for x — undocumented declared parameters do not pass through. -/
theorem c9_counterexample :
    fnNoDoc.paramsOf = [paramX] ∧
    emits fnNoDoc = true ∧
    (superVisit fnNoDoc []).1 = [(("g"), emittedValue fnNoDoc)] ∧
    objGetV (emittedValue fnNoDoc) ("parameters") = some (.obj []) :=
  ⟨rfl, rfl, rfl, rfl⟩

/-- Claim C9 amended: the emitted parameters map of a function is the
documentation parameter map after the visitApiParam loop; its keys are
exactly the documentation map keys, so a declared parameter passes through
exactly when it has a documentation entry, and a documented declared
parameter with a supported name passes through enriched with the declared
isOptional, isSpread and type. -/
theorem c9_parameters_map (n : String) (doc : ApiDocumentation)
    (params : List AstParameter) (rt : String) (o : JObject) :
    (superVisit (.astFunction n true doc params rt) o).1
      = setKey o n (functionNode doc (applyApiParams params doc.parameters) rt) ∧
    objKeysV (paramsToJson (applyApiParams params doc.parameters))
      = doc.parameters.map Prod.fst ∧
    ((params.map AstParameter.name).Nodup → ∀ p ∈ params, p.supportedName = true →
      ∀ e, lookupKey doc.parameters p.name = some e →
        lookupKey (applyApiParams params doc.parameters) p.name
          = some { e with
                    isOptional := p.isOptional
                    isSpread := p.isSpread
                    type := p.type }) := by
  refine ⟨?_, ?_, ?_⟩
  · simp [superVisit, visitAstFunction, emittedValue]
  · exact (paramsToJson_keys _).trans (applyApiParams_fst params doc.parameters)
  · intro hnd p hp hsn e he
    exact applyApiParams_enriched params doc.parameters p e hnd hp hsn he

/-- Witness for C9 amended at one declared documented parameter. -/
theorem c9_parameters_map_witness :
    objKeysV (paramsToJson (applyApiParams [paramX] [(("x"), docEntryX)])) = [("x")] ∧
    lookupKey (applyApiParams [paramX] [(("x"), docEntryX)]) ("x")
      = some enrichedEntryX := by
  obtain ⟨h1, h2, h3⟩ := c9_parameters_map ("f")
    { docPub with parameters := [(("x"), docEntryX)] } [paramX] ("void") []
  exact ⟨h2.trans rfl, (h3 (by decide) paramX (List.mem_cons_self paramX []) rfl
    docEntryX rfl).trans rfl⟩

/-- Claim C10: the value field of an emitted enum value node is the text of
the last declaration token exactly when the declaration has more than one
token, and the empty string otherwise, an absent declaration degrading to
the empty string; the hypothesis that the token nodes are pairwise distinct
encodes reference identity of distinct AST token objects. -/
theorem c10_enum_value_text (n : String) (doc : ApiDocumentation)
    (decl : Option TsDeclaration) (o : JObject)
    (h : ∀ d, decl = some d → d.tokens.Nodup) :
    (superVisit (.astEnumValue n true doc decl) o).1
      = setKey o n (enumValueNode doc decl) ∧
    objGetV (enumValueNode doc decl) ("value")
      = some (.str (specEnumValueText decl)) := by
  constructor
  · simp [superVisit, visitAstEnumValue]
  · show (some (JValue.str (enumValueText decl)) : Option JValue)
        = some (JValue.str (specEnumValueText decl))
    rw [enumValueText_eq_spec decl h]

/-- Witness for C10 at a two-token declaration. -/
theorem c10_enum_value_text_witness :
    objGetV (enumValueNode docPub (some decl2)) ("value") = some (.str ("1")) := by
  have h := (c10_enum_value_text ("Red") docPub (some decl2) []
    (by intro d hd; cases hd; decide)).2
  exact h.trans rfl

end ApiJson
